import Mathlib

/-!
Verification of the websocket command-dispatch gateway in
`custom_components/frigate/ws_api.py`.

The module registers three websocket command handlers (`ws_retain_event`,
`ws_get_recordings`, `ws_get_recordings_summary`).  Each handler resolves an
`instance_id` to a backend API client, invokes one backend method, and sends
exactly one response envelope (a result or an error) on the originating
connection.  We embed the handlers shallowly: result payloads are opaque
strings, backend methods are functions returning `Except`, and a handler run
is a `HandlerTrace` recording the envelopes it sent, the backend calls it
made, and the exception (if any) that escaped it.
-/

/-- Opaque result payload returned by the backend API client.  The gateway
never inspects it, so we model it as an uninterpreted string. -/
abbrev Payload := String

/-- Exceptions a backend method can raise: the distinguished
`FrigateApiClientError` from `custom_components/frigate/api.py`, or any
other Python exception (tagged with its name). -/
inductive Exc where
  | frigateApiClientError : Exc
  | other : String → Exc
deriving DecidableEq, Repr

/-- A response envelope sent on the websocket connection:
`connection.send_result(id, payload)` or
`connection.send_error(id, code, message)`. -/
inductive Envelope where
  | result : Nat → Payload → Envelope
  | error : Nat → String → String → Envelope
deriving DecidableEq, Repr

/-- The request id an envelope is correlated with. -/
def Envelope.envId : Envelope → Nat
  | .result i _ => i
  | .error i _ _ => i

/-- Whether an envelope is a success (`send_result`) envelope. -/
def Envelope.isResult : Envelope → Bool
  | .result _ _ => true
  | .error _ _ _ => false

/-- A record of one invocation of a backend client method, with the exact
arguments passed. -/
inductive BackendCall where
  | retain : String → Bool → BackendCall
  | getRecordings : String → Option Int → Option Int → BackendCall
  | getRecordingsSummary : String → BackendCall
deriving DecidableEq, Repr

/-- The observable outcome of running one handler on one message: the
envelopes sent on the connection (in order), the backend calls made (in
order), and the exception that escaped the handler, if any. -/
structure HandlerTrace where
  sent : List Envelope
  calls : List BackendCall
  raised : Option Exc
deriving DecidableEq, Repr

/-- The backend API client (`FrigateApiClient` in
`custom_components/frigate/api.py`, an external collaborator).  Each async
method either returns a payload or raises an exception; we model a method as
a function into `Except Exc Payload`. -/
structure FrigateApiClient where
  async_retain : String → Bool → Except Exc Payload
  async_get_recordings : String → Option Int → Option Int → Except Exc Payload
  async_get_recordings_summary : String → Except Exc Payload

/-- The slice of the HomeAssistant object the gateway uses: the registry
resolving an instance id to a live backend client. -/
structure Hass where
  registry : String → Option FrigateApiClient

/-- Modelled from the spec: `websocket_api.const.ERR_NOT_FOUND`, the fixed
error code for an unresolvable instance id (`not_found`).  The constant
lives in the host platform, outside this repository. -/
def ERR_NOT_FOUND : String := "not_found"

/-- Modelled from the spec: `get_client_for_frigate_instance_id` from
`custom_components/frigate/views.py` (not included in the source excerpt).
The spec describes it as a pure registry lookup:
`resolve(instance_id) -> BackendHandle | NotFound`. -/
def get_client_for_frigate_instance_id (hass : Hass) (instance_id : String) :
    Option FrigateApiClient :=
  hass.registry instance_id

/-- `_get_client_or_send_error` from `ws_api.py`: look up the client; if it
is absent, send a `not_found` error naming the instance id and return
`None`.  We return the error envelope to be sent in the `Except.error`
case. -/
def _get_client_or_send_error (hass : Hass) (instance_id : String)
    (msg_id : Nat) : Except Envelope FrigateApiClient :=
  match get_client_for_frigate_instance_id hass instance_id with
  | none =>
      Except.error (Envelope.error msg_id ERR_NOT_FOUND
        ("Unable to find Frigate instance with ID: " ++ instance_id))
  | some client => Except.ok client

/-- A validated `frigate/event/retain` message (all required fields present,
as enforced by the declared voluptuous schema). -/
structure RetainEventMsg where
  id : Nat
  instance_id : String
  event_id : String
  retain : Bool
deriving DecidableEq, Repr

/-- A validated `frigate/recordings/get` message. `after` and `before` are
optional; `none` models absence (`msg.get` returning `None`). -/
structure GetRecordingsMsg where
  id : Nat
  instance_id : String
  camera : String
  after : Option Int
  before : Option Int
deriving DecidableEq, Repr

/-- A validated `frigate/recordings/summary` message. -/
structure GetRecordingsSummaryMsg where
  id : Nat
  instance_id : String
  camera : String
deriving DecidableEq, Repr

/-- `ws_retain_event` from `ws_api.py`.  Resolve the client (sending
`not_found` and returning if absent); call `client.async_retain(event_id,
retain)`; on success send the result verbatim; on `FrigateApiClientError`
send a `frigate_error` envelope; any other exception escapes with nothing
sent. -/
def ws_retain_event (hass : Hass) (msg : RetainEventMsg) : HandlerTrace :=
  match _get_client_or_send_error hass msg.instance_id msg.id with
  | Except.error env => ⟨[env], [], none⟩
  | Except.ok client =>
      match client.async_retain msg.event_id msg.retain with
      | Except.ok payload =>
          ⟨[Envelope.result msg.id payload],
            [BackendCall.retain msg.event_id msg.retain], none⟩
      | Except.error Exc.frigateApiClientError =>
          ⟨[Envelope.error msg.id "frigate_error"
              ("API error whilst un/retaining event " ++ msg.event_id ++
                " for Frigate instance " ++ msg.instance_id)],
            [BackendCall.retain msg.event_id msg.retain], none⟩
      | Except.error (Exc.other s) =>
          ⟨[], [BackendCall.retain msg.event_id msg.retain],
            some (Exc.other s)⟩

/-- `ws_get_recordings` from `ws_api.py`.  Resolve the client; call
`client.async_get_recordings(camera, after, before)` with the request's
arguments in that order; envelope the outcome as in `ws_retain_event`. -/
def ws_get_recordings (hass : Hass) (msg : GetRecordingsMsg) : HandlerTrace :=
  match _get_client_or_send_error hass msg.instance_id msg.id with
  | Except.error env => ⟨[env], [], none⟩
  | Except.ok client =>
      match client.async_get_recordings msg.camera msg.after msg.before with
      | Except.ok payload =>
          ⟨[Envelope.result msg.id payload],
            [BackendCall.getRecordings msg.camera msg.after msg.before], none⟩
      | Except.error Exc.frigateApiClientError =>
          ⟨[Envelope.error msg.id "frigate_error"
              ("API error whilst retrieving recordings for camera " ++
                msg.camera ++ " for Frigate instance " ++ msg.instance_id)],
            [BackendCall.getRecordings msg.camera msg.after msg.before], none⟩
      | Except.error (Exc.other s) =>
          ⟨[], [BackendCall.getRecordings msg.camera msg.after msg.before],
            some (Exc.other s)⟩

/-- `ws_get_recordings_summary` from `ws_api.py`.  Resolve the client; call
`client.async_get_recordings_summary(camera)`; envelope the outcome as in
`ws_retain_event`. -/
def ws_get_recordings_summary (hass : Hass) (msg : GetRecordingsSummaryMsg) :
    HandlerTrace :=
  match _get_client_or_send_error hass msg.instance_id msg.id with
  | Except.error env => ⟨[env], [], none⟩
  | Except.ok client =>
      match client.async_get_recordings_summary msg.camera with
      | Except.ok payload =>
          ⟨[Envelope.result msg.id payload],
            [BackendCall.getRecordingsSummary msg.camera], none⟩
      | Except.error Exc.frigateApiClientError =>
          ⟨[Envelope.error msg.id "frigate_error"
              ("API error whilst retrieving recordings summary for camera " ++
                msg.camera ++ " for Frigate instance " ++ msg.instance_id)],
            [BackendCall.getRecordingsSummary msg.camera], none⟩
      | Except.error (Exc.other s) =>
          ⟨[], [BackendCall.getRecordingsSummary msg.camera],
            some (Exc.other s)⟩

/-- A validated request for one of the three gateway commands. -/
inductive Command where
  | retainEvent : RetainEventMsg → Command
  | getRecordings : GetRecordingsMsg → Command
  | getRecordingsSummary : GetRecordingsSummaryMsg → Command
deriving DecidableEq, Repr

/-- Run the handler registered for the command. -/
def handle (hass : Hass) : Command → HandlerTrace
  | .retainEvent m => ws_retain_event hass m
  | .getRecordings m => ws_get_recordings hass m
  | .getRecordingsSummary m => ws_get_recordings_summary hass m

/-- The request id of a command. -/
def Command.reqId : Command → Nat
  | .retainEvent m => m.id
  | .getRecordings m => m.id
  | .getRecordingsSummary m => m.id

/-- The target instance id of a command. -/
def Command.instanceId : Command → String
  | .retainEvent m => m.instance_id
  | .getRecordings m => m.instance_id
  | .getRecordingsSummary m => m.instance_id

/-- The resource a command operates on: the event id for `retain-event`,
the camera name otherwise. -/
def Command.resource : Command → String
  | .retainEvent m => m.event_id
  | .getRecordings m => m.camera
  | .getRecordingsSummary m => m.camera

/-- The backend method invocation a command maps to. -/
def expectedCall : Command → BackendCall
  | .retainEvent m => BackendCall.retain m.event_id m.retain
  | .getRecordings m => BackendCall.getRecordings m.camera m.after m.before
  | .getRecordingsSummary m => BackendCall.getRecordingsSummary m.camera

/-- The outcome of the backend method a command maps to, on a given
client. -/
def backendOutcome (client : FrigateApiClient) : Command → Except Exc Payload
  | .retainEvent m => client.async_retain m.event_id m.retain
  | .getRecordings m => client.async_get_recordings m.camera m.after m.before
  | .getRecordingsSummary m => client.async_get_recordings_summary m.camera

/-- The `frigate_error` message text each handler formats, as written in
`ws_api.py`. -/
def frigateErrorMessage : Command → String
  | .retainEvent m =>
      "API error whilst un/retaining event " ++ m.event_id ++
        " for Frigate instance " ++ m.instance_id
  | .getRecordings m =>
      "API error whilst retrieving recordings for camera " ++ m.camera ++
        " for Frigate instance " ++ m.instance_id
  | .getRecordingsSummary m =>
      "API error whilst retrieving recordings summary for camera " ++
        m.camera ++ " for Frigate instance " ++ m.instance_id

/-- A raw inbound websocket message before schema validation.  The host
framework parses json into typed fields; a field the client omitted is
`none`.  `id` and `type` are always present (the framework validates them
before routing). -/
structure RawMessage where
  id : Nat
  type : String
  instance_id : Option String
  event_id : Option String
  retain : Option Bool
  camera : Option String
  after : Option Int
  before : Option Int
deriving DecidableEq, Repr

/-- Whether the message type names one of the three gateway commands
registered by `async_setup`. -/
def isGatewayCommand (t : String) : Bool :=
  t = "frigate/event/retain" || t = "frigate/recordings/get" ||
    t = "frigate/recordings/summary"

/-- Whether a raw message carries every field its command's declared
voluptuous schema marks `vol.Required`. -/
def requiredFieldsOk (m : RawMessage) : Bool :=
  if m.type = "frigate/event/retain" then
    m.instance_id.isSome && m.event_id.isSome && m.retain.isSome
  else if m.type = "frigate/recordings/get" then
    m.instance_id.isSome && m.camera.isSome
  else if m.type = "frigate/recordings/summary" then
    m.instance_id.isSome && m.camera.isSome
  else
    true

/-- The trace of the host framework rejecting a message that fails schema
validation: one `invalid_format` error envelope, no handler invocation. -/
def invalidFormatTrace (msgId : Nat) : HandlerTrace :=
  ⟨[Envelope.error msgId "invalid_format" "Message incorrectly formatted"],
    [], none⟩

/-- Modelled from the spec: the host websocket framework's routing and
schema validation (`websocket_api.websocket_command` decorators declared in
`ws_api.py`; enforcement lives in the host platform).  A message whose
`type` names a registered command is validated against that command's
declared schema: on failure the framework sends an `invalid_format` error
and never invokes the handler; on success the handler runs on the validated
message.  An unknown `type` yields an `unknown_command` error from the
framework. -/
def dispatch (hass : Hass) (m : RawMessage) : HandlerTrace :=
  if m.type = "frigate/event/retain" then
    match m.instance_id, m.event_id, m.retain with
    | some iid, some eid, some r =>
        ws_retain_event hass ⟨m.id, iid, eid, r⟩
    | _, _, _ => invalidFormatTrace m.id
  else if m.type = "frigate/recordings/get" then
    match m.instance_id, m.camera with
    | some iid, some cam =>
        ws_get_recordings hass ⟨m.id, iid, cam, m.after, m.before⟩
    | _, _ => invalidFormatTrace m.id
  else if m.type = "frigate/recordings/summary" then
    match m.instance_id, m.camera with
    | some iid, some cam =>
        ws_get_recordings_summary hass ⟨m.id, iid, cam⟩
    | _, _ => invalidFormatTrace m.id
  else
    ⟨[Envelope.error m.id "unknown_command" "Unknown command."], [], none⟩

/-- Back-to-back sequential processing of a batch of requests on one
connection: each request's handler runs to completion before the next
starts; the outbound stream is the concatenation of the sent envelopes. -/
def sequentialRun (hass : Hass) (reqs : List RawMessage) : List Envelope :=
  (reqs.map (fun m => (dispatch hass m).sent)).flatten

/-- A scheduling event in the cooperative concurrent execution of a batch
of requests: request `i` arrives (its handler runs up to its first
suspension point), or request `i`'s pending backend call completes (its
handler runs to the end). -/
inductive RunEvent where
  | arrive : Nat → RunEvent
  | complete : Nat → RunEvent
deriving DecidableEq, Repr

/-- The full handler trace of the `i`-th request of the batch (empty for an
out-of-range index). -/
def taskTrace (hass : Hass) (reqs : List RawMessage) (i : Nat) :
    HandlerTrace :=
  match reqs.get? i with
  | some m => dispatch hass m
  | none => ⟨[], [], none⟩

/-- Whether the `i`-th request's handler reaches its backend call.  In
every handler the backend call (`await`) is the only suspension point, all
sends in the `try` block occur after it, and the `not_found` and
`invalid_format` sends occur before it; so a handler suspends exactly when
its trace records a backend call. -/
def suspends (hass : Hass) (reqs : List RawMessage) (i : Nat) : Bool :=
  !(taskTrace hass reqs i).calls.isEmpty

/-- Modelled from the spec: the envelopes emitted at a scheduling event.
A handler that never suspends (schema rejection or unresolved instance)
sends its envelope synchronously at arrival; a handler that suspends sends
its envelopes when its backend call completes. -/
def emitAt (hass : Hass) (reqs : List RawMessage) : RunEvent → List Envelope
  | .arrive i =>
      if suspends hass reqs i then [] else (taskTrace hass reqs i).sent
  | .complete i =>
      if suspends hass reqs i then (taskTrace hass reqs i).sent else []

/-- Modelled from the spec: the outbound envelope stream of one cooperative
interleaved execution of the batch, determined by the schedule of events. -/
def runStream (hass : Hass) (reqs : List RawMessage)
    (sched : List RunEvent) : List Envelope :=
  (sched.map (emitAt hass reqs)).flatten

/-- The arrival order a schedule realises, as the list of request
indices. -/
def arrivalOrder (sched : List RunEvent) : List Nat :=
  sched.filterMap (fun e =>
    match e with
    | RunEvent.arrive i => some i
    | RunEvent.complete _ => none)

/-- Modelled from the spec: a schedule is a complete cooperative execution
of the batch when every request arrives exactly once, in batch order;
every suspending request completes exactly once, after its arrival; a
non-suspending request never completes; and no out-of-range index
occurs. -/
def validSchedule (hass : Hass) (reqs : List RawMessage)
    (sched : List RunEvent) : Bool :=
  ((List.range reqs.length).all (fun i =>
      sched.count (RunEvent.arrive i) = 1 &&
        sched.count (RunEvent.complete i) =
          (if suspends hass reqs i then 1 else 0) &&
        (!suspends hass reqs i ||
          decide (sched.indexOf (RunEvent.arrive i) <
            sched.indexOf (RunEvent.complete i))))) &&
    sched.all (fun e =>
      match e with
      | RunEvent.arrive i => decide (i < reqs.length)
      | RunEvent.complete i =>
          decide (i < reqs.length) && suspends hass reqs i) &&
    arrivalOrder sched = List.range reqs.length

/-- A backend client whose methods only ever succeed or raise the
distinguished `FrigateApiClientError` (never a foreign exception). -/
def clientNoForeignExc (client : FrigateApiClient) : Prop :=
  (∀ e r s, client.async_retain e r ≠ Except.error (Exc.other s)) ∧
    (∀ cam a b s,
      client.async_get_recordings cam a b ≠ Except.error (Exc.other s)) ∧
    (∀ cam s,
      client.async_get_recordings_summary cam ≠ Except.error (Exc.other s))

/-- Every client the registry can resolve satisfies
`clientNoForeignExc`. -/
def hassNoForeignExc (hass : Hass) : Prop :=
  ∀ iid client, hass.registry iid = some client → clientNoForeignExc client

lemma ws_retain_event_one_envelope (hass : Hass) (msg : RetainEventMsg)
    (h : hassNoForeignExc hass) :
    (ws_retain_event hass msg).sent.length = 1 ∧
      (ws_retain_event hass msg).raised = none := by
  unfold ws_retain_event _get_client_or_send_error
    get_client_for_frigate_instance_id
  cases hr : hass.registry msg.instance_id with
  | none => simp [hr]
  | some client =>
      cases ho : client.async_retain msg.event_id msg.retain with
      | ok p => simp [hr, ho]
      | error e =>
          cases e with
          | frigateApiClientError => simp [hr, ho]
          | other s => exact absurd ho ((h _ _ hr).1 _ _ s)

lemma ws_get_recordings_one_envelope (hass : Hass) (msg : GetRecordingsMsg)
    (h : hassNoForeignExc hass) :
    (ws_get_recordings hass msg).sent.length = 1 ∧
      (ws_get_recordings hass msg).raised = none := by
  unfold ws_get_recordings _get_client_or_send_error
    get_client_for_frigate_instance_id
  cases hr : hass.registry msg.instance_id with
  | none => simp [hr]
  | some client =>
      cases ho : client.async_get_recordings msg.camera msg.after msg.before with
      | ok p => simp [hr, ho]
      | error e =>
          cases e with
          | frigateApiClientError => simp [hr, ho]
          | other s => exact absurd ho ((h _ _ hr).2.1 _ _ _ s)

lemma ws_get_recordings_summary_one_envelope (hass : Hass)
    (msg : GetRecordingsSummaryMsg) (h : hassNoForeignExc hass) :
    (ws_get_recordings_summary hass msg).sent.length = 1 ∧
      (ws_get_recordings_summary hass msg).raised = none := by
  unfold ws_get_recordings_summary _get_client_or_send_error
    get_client_for_frigate_instance_id
  cases hr : hass.registry msg.instance_id with
  | none => simp [hr]
  | some client =>
      cases ho : client.async_get_recordings_summary msg.camera with
      | ok p => simp [hr, ho]
      | error e =>
          cases e with
          | frigateApiClientError => simp [hr, ho]
          | other s => exact absurd ho ((h _ _ hr).2.2 _ s)

lemma dispatch_one_envelope (hass : Hass) (m : RawMessage)
    (h : hassNoForeignExc hass) :
    (dispatch hass m).sent.length = 1 ∧ (dispatch hass m).raised = none := by
  unfold dispatch
  split
  · cases m.instance_id <;> cases m.event_id <;> cases m.retain <;>
      first
        | exact ws_retain_event_one_envelope hass _ h
        | simp [invalidFormatTrace]
  · split
    · cases m.instance_id <;> cases m.camera <;>
        first
          | exact ws_get_recordings_one_envelope hass _ h
          | simp [invalidFormatTrace]
    · split
      · cases m.instance_id <;> cases m.camera <;>
          first
            | exact ws_get_recordings_summary_one_envelope hass _ h
            | simp [invalidFormatTrace]
      · simp

lemma ws_retain_event_envId (hass : Hass) (msg : RetainEventMsg) :
    ∀ env ∈ (ws_retain_event hass msg).sent, env.envId = msg.id := by
  unfold ws_retain_event _get_client_or_send_error
    get_client_for_frigate_instance_id
  cases hr : hass.registry msg.instance_id with
  | none => simp [hr, Envelope.envId]
  | some client =>
      cases ho : client.async_retain msg.event_id msg.retain with
      | ok p => simp [hr, ho, Envelope.envId]
      | error e =>
          cases e with
          | frigateApiClientError => simp [hr, ho, Envelope.envId]
          | other s => simp [hr, ho]

lemma ws_get_recordings_envId (hass : Hass) (msg : GetRecordingsMsg) :
    ∀ env ∈ (ws_get_recordings hass msg).sent, env.envId = msg.id := by
  unfold ws_get_recordings _get_client_or_send_error
    get_client_for_frigate_instance_id
  cases hr : hass.registry msg.instance_id with
  | none => simp [hr, Envelope.envId]
  | some client =>
      cases ho : client.async_get_recordings msg.camera msg.after msg.before with
      | ok p => simp [hr, ho, Envelope.envId]
      | error e =>
          cases e with
          | frigateApiClientError => simp [hr, ho, Envelope.envId]
          | other s => simp [hr, ho]

lemma ws_get_recordings_summary_envId (hass : Hass)
    (msg : GetRecordingsSummaryMsg) :
    ∀ env ∈ (ws_get_recordings_summary hass msg).sent, env.envId = msg.id := by
  unfold ws_get_recordings_summary _get_client_or_send_error
    get_client_for_frigate_instance_id
  cases hr : hass.registry msg.instance_id with
  | none => simp [hr, Envelope.envId]
  | some client =>
      cases ho : client.async_get_recordings_summary msg.camera with
      | ok p => simp [hr, ho, Envelope.envId]
      | error e =>
          cases e with
          | frigateApiClientError => simp [hr, ho, Envelope.envId]
          | other s => simp [hr, ho]

lemma dispatch_envId (hass : Hass) (m : RawMessage) :
    ∀ env ∈ (dispatch hass m).sent, env.envId = m.id := by
  unfold dispatch
  split
  · cases m.instance_id <;> cases m.event_id <;> cases m.retain <;>
      first
        | exact ws_retain_event_envId hass _
        | simp [invalidFormatTrace, Envelope.envId]
  · split
    · cases m.instance_id <;> cases m.camera <;>
        first
          | exact ws_get_recordings_envId hass _
          | simp [invalidFormatTrace, Envelope.envId]
    · split
      · cases m.instance_id <;> cases m.camera <;>
          first
            | exact ws_get_recordings_summary_envId hass _
            | simp [invalidFormatTrace, Envelope.envId]
      · simp [Envelope.envId]

lemma taskTrace_envId (hass : Hass) (reqs : List RawMessage) (j : Nat)
    (env : Envelope) (hmem : env ∈ (taskTrace hass reqs j).sent) :
    ∃ hj : j < reqs.length, env.envId = (reqs.get ⟨j, hj⟩).id := by
  unfold taskTrace at hmem
  cases hg : reqs.get? j with
  | none => rw [hg] at hmem; simp at hmem
  | some m =>
      rw [hg] at hmem
      obtain ⟨hj, hm⟩ := List.get?_eq_some.mp hg
      exact ⟨hj, by rw [hm]; exact dispatch_envId hass m env hmem⟩

lemma sum_map_support_pair {α : Type} [DecidableEq α] (f : α → Nat)
    (a b : α) (hab : a ≠ b) :
    ∀ l : List α, (∀ x ∈ l, x ≠ a → x ≠ b → f x = 0) →
      (l.map f).sum = f a * l.count a + f b * l.count b := by
  intro l
  induction l with
  | nil => intro _; simp
  | cons x xs ih =>
      intro h
      have hx := h x (List.mem_cons_self x xs)
      have hxs : ∀ y ∈ xs, y ≠ a → y ≠ b → f y = 0 :=
        fun y hy => h y (List.mem_cons_of_mem x hy)
      rw [List.map_cons, List.sum_cons, ih hxs]
      by_cases hxa : x = a
      · subst hxa
        rw [List.count_cons_self, List.count_cons_of_ne (Ne.symm hab)]
        ring
      · by_cases hxb : x = b
        · subst hxb
          rw [List.count_cons_self, List.count_cons_of_ne (Ne.symm hab).symm]
          ring
        · rw [List.count_cons_of_ne (fun hc => hxa hc.symm),
            List.count_cons_of_ne (fun hc => hxb hc.symm), hx hxa hxb]
          ring

lemma map_id_ne_of_nodup (reqs : List RawMessage)
    (hnodup : (reqs.map RawMessage.id).Nodup) (i j : Nat)
    (hi : i < reqs.length) (hj : j < reqs.length) (hij : i ≠ j) :
    (reqs.get ⟨i, hi⟩).id ≠ (reqs.get ⟨j, hj⟩).id := by
  intro he
  apply hij
  have hi' : i < (reqs.map RawMessage.id).length := by simpa using hi
  have hj' : j < (reqs.map RawMessage.id).length := by simpa using hj
  have hgi : (reqs.map RawMessage.id).get ⟨i, hi'⟩ = (reqs.get ⟨i, hi⟩).id := by
    simp [List.get_eq_getElem, List.getElem_map]
  have hgj : (reqs.map RawMessage.id).get ⟨j, hj'⟩ = (reqs.get ⟨j, hj⟩).id := by
    simp [List.get_eq_getElem, List.getElem_map]
  have hfin := (List.Nodup.get_inj_iff hnodup).mp
    (show (reqs.map RawMessage.id).get ⟨i, hi'⟩ =
        (reqs.map RawMessage.id).get ⟨j, hj'⟩ by rw [hgi, hgj]; exact he)
  exact congrArg Fin.val hfin

/-- C7 (amended): in every complete cooperative execution of a batch of
requests with pairwise distinct request ids, provided each request's
handling emits exactly one envelope, each request identifier maps to
exactly one envelope of the outbound stream; but envelopes need not be
emitted in arrival order (see the counterexample). -/
theorem one_envelope_per_request_id
    (hass : Hass) (reqs : List RawMessage) (sched : List RunEvent)
    (i : Nat) (hi : i < reqs.length)
    (hv : validSchedule hass reqs sched = true)
    (hone : ∀ j, j < reqs.length → (taskTrace hass reqs j).sent.length = 1)
    (hnodup : (reqs.map RawMessage.id).Nodup) :
    (runStream hass reqs sched).countP
      (fun env => decide (env.envId = (reqs.get ⟨i, hi⟩).id)) = 1 := by
  have hv' := hv
  simp only [validSchedule, Bool.and_eq_true, List.all_eq_true,
    List.mem_range, decide_eq_true_eq] at hv'
  have hcnt := hv'.1.1
  have hca : sched.count (RunEvent.arrive i) = 1 := (hcnt i hi).1.1
  have hcc : sched.count (RunEvent.complete i) =
      (if suspends hass reqs i then 1 else 0) := (hcnt i hi).1.2
  have hall : ∀ env ∈ (taskTrace hass reqs i).sent,
      (fun env => decide (env.envId = (reqs.get ⟨i, hi⟩).id)) env = true := by
    intro env hm
    obtain ⟨hj, he⟩ := taskTrace_envId hass reqs i env hm
    exact decide_eq_true he
  have hcp : (taskTrace hass reqs i).sent.countP
      (fun env => decide (env.envId = (reqs.get ⟨i, hi⟩).id)) = 1 :=
    (List.countP_eq_length.mpr hall).trans (hone i hi)
  have hzero : ∀ j, j ≠ i → (taskTrace hass reqs j).sent.countP
      (fun env => decide (env.envId = (reqs.get ⟨i, hi⟩).id)) = 0 := by
    intro j hji
    apply List.countP_eq_zero.mpr
    intro env hm
    obtain ⟨hj, he⟩ := taskTrace_envId hass reqs j env hm
    simp only [decide_eq_true_eq]
    intro hc
    exact map_id_ne_of_nodup reqs hnodup j i hj hi hji (by rw [← he]; exact hc)
  unfold runStream
  rw [List.countP_flatten, List.map_map]
  have hsupp : ∀ e ∈ sched, e ≠ RunEvent.arrive i → e ≠ RunEvent.complete i →
      ((fun l => l.countP
          (fun env => decide (env.envId = (reqs.get ⟨i, hi⟩).id))) ∘
        emitAt hass reqs) e = 0 := by
    intro e _ hea hec
    cases e with
    | arrive j =>
        have hji : j ≠ i := fun hc => hea (by rw [hc])
        cases hs : suspends hass reqs j with
        | true => simp [Function.comp, emitAt, hs]
        | false => simpa [Function.comp, emitAt, hs] using hzero j hji
    | complete j =>
        have hji : j ≠ i := fun hc => hec (by rw [hc])
        cases hs : suspends hass reqs j with
        | true => simpa [Function.comp, emitAt, hs] using hzero j hji
        | false => simp [Function.comp, emitAt, hs]
  rw [sum_map_support_pair _ (RunEvent.arrive i) (RunEvent.complete i)
    (by simp) sched hsupp]
  cases hs : suspends hass reqs i with
  | true =>
      have h1 : ((fun l => l.countP
          (fun env => decide (env.envId = (reqs.get ⟨i, hi⟩).id))) ∘
            emitAt hass reqs) (RunEvent.arrive i) = 0 := by
        simp [Function.comp, emitAt, hs]
      have h2 : ((fun l => l.countP
          (fun env => decide (env.envId = (reqs.get ⟨i, hi⟩).id))) ∘
            emitAt hass reqs) (RunEvent.complete i) = 1 := by
        simpa [Function.comp, emitAt, hs] using hcp
      rw [h1, h2, hca, hcc]
      simp [hs]
  | false =>
      have h1 : ((fun l => l.countP
          (fun env => decide (env.envId = (reqs.get ⟨i, hi⟩).id))) ∘
            emitAt hass reqs) (RunEvent.arrive i) = 1 := by
        simpa [Function.comp, emitAt, hs] using hcp
      have h2 : ((fun l => l.countP
          (fun env => decide (env.envId = (reqs.get ⟨i, hi⟩).id))) ∘
            emitAt hass reqs) (RunEvent.complete i) = 0 := by
        simp [Function.comp, emitAt, hs]
      rw [h1, h2, hca, hcc]
      simp [hs]

/-- A test backend client whose three methods always succeed, returning
distinct opaque payloads. -/
def okClient : FrigateApiClient :=
  ⟨fun _ _ => Except.ok "retain-ok",
    fun _ _ _ => Except.ok "recordings-ok",
    fun _ => Except.ok "summary-ok"⟩

/-- A registry with the single instance `"X"`, bound to `okClient`. -/
def testHass : Hass :=
  ⟨fun s => if s = "X" then some okClient else none⟩

/-- A test backend client whose methods always raise
`FrigateApiClientError`. -/
def frigateErrClient : FrigateApiClient :=
  ⟨fun _ _ => Except.error Exc.frigateApiClientError,
    fun _ _ _ => Except.error Exc.frigateApiClientError,
    fun _ => Except.error Exc.frigateApiClientError⟩

/-- A registry with the single instance `"X"`, bound to
`frigateErrClient`. -/
def errHass : Hass :=
  ⟨fun s => if s = "X" then some frigateErrClient else none⟩

/-- A test backend client whose methods always raise a foreign (non-domain)
exception, here a `ValueError`. -/
def exoticErrClient : FrigateApiClient :=
  ⟨fun _ _ => Except.error (Exc.other "ValueError"),
    fun _ _ _ => Except.error (Exc.other "ValueError"),
    fun _ => Except.error (Exc.other "ValueError")⟩

/-- A registry with the single instance `"X"`, bound to
`exoticErrClient`. -/
def exoticHass : Hass :=
  ⟨fun s => if s = "X" then some exoticErrClient else none⟩

/-- A well-formed `frigate/event/retain` raw message targeting instance
`"X"`, event `"E1"`, with `retain = true` and request id 1. -/
def retainRaw1 : RawMessage :=
  ⟨1, "frigate/event/retain", some "X", some "E1", some true, none, none,
    none⟩

/-- A well-formed `frigate/event/retain` raw message targeting instance
`"X"`, event `"E2"`, with `retain = false` and request id 2. -/
def retainRaw2 : RawMessage :=
  ⟨2, "frigate/event/retain", some "X", some "E2", some false, none, none,
    none⟩

/-- A two-request batch with distinct request ids 1 and 2. -/
def batch2 : List RawMessage := [retainRaw1, retainRaw2]

/-- A complete cooperative schedule of `batch2` in which request 2's
backend call completes before request 1's. -/
def swappedSched : List RunEvent :=
  [RunEvent.arrive 0, RunEvent.arrive 1, RunEvent.complete 1,
    RunEvent.complete 0]

lemma ws_retain_event_sent_le_one (hass : Hass) (msg : RetainEventMsg) :
    (ws_retain_event hass msg).sent.length ≤ 1 := by
  unfold ws_retain_event _get_client_or_send_error
    get_client_for_frigate_instance_id
  cases hr : hass.registry msg.instance_id with
  | none => simp [hr]
  | some client =>
      cases ho : client.async_retain msg.event_id msg.retain with
      | ok p => simp [hr, ho]
      | error e => cases e <;> simp [hr, ho]

lemma ws_get_recordings_sent_le_one (hass : Hass) (msg : GetRecordingsMsg) :
    (ws_get_recordings hass msg).sent.length ≤ 1 := by
  unfold ws_get_recordings _get_client_or_send_error
    get_client_for_frigate_instance_id
  cases hr : hass.registry msg.instance_id with
  | none => simp [hr]
  | some client =>
      cases ho : client.async_get_recordings msg.camera msg.after msg.before with
      | ok p => simp [hr, ho]
      | error e => cases e <;> simp [hr, ho]

lemma ws_get_recordings_summary_sent_le_one (hass : Hass)
    (msg : GetRecordingsSummaryMsg) :
    (ws_get_recordings_summary hass msg).sent.length ≤ 1 := by
  unfold ws_get_recordings_summary _get_client_or_send_error
    get_client_for_frigate_instance_id
  cases hr : hass.registry msg.instance_id with
  | none => simp [hr]
  | some client =>
      cases ho : client.async_get_recordings_summary msg.camera with
      | ok p => simp [hr, ho]
      | error e => cases e <;> simp [hr, ho]

/-- C1: for every well-formed request of any of the three commands whose
instance id resolves to a backend client and whose backend operation
returns successfully, the gateway sends exactly one success envelope
carrying the request's id whose result is the backend's return value
verbatim, and makes exactly the corresponding backend call. -/
theorem success_result_verbatim (hass : Hass) (c : Command)
    (client : FrigateApiClient) (p : Payload)
    (hres : hass.registry c.instanceId = some client)
    (hok : backendOutcome client c = Except.ok p) :
    handle hass c = ⟨[Envelope.result c.reqId p], [expectedCall c], none⟩ := by
  cases c with
  | retainEvent m =>
      simp only [Command.instanceId] at hres
      simp only [backendOutcome] at hok
      simp [handle, ws_retain_event, _get_client_or_send_error,
        get_client_for_frigate_instance_id, hres, hok, Command.reqId,
        expectedCall]
  | getRecordings m =>
      simp only [Command.instanceId] at hres
      simp only [backendOutcome] at hok
      simp [handle, ws_get_recordings, _get_client_or_send_error,
        get_client_for_frigate_instance_id, hres, hok, Command.reqId,
        expectedCall]
  | getRecordingsSummary m =>
      simp only [Command.instanceId] at hres
      simp only [backendOutcome] at hok
      simp [handle, ws_get_recordings_summary, _get_client_or_send_error,
        get_client_for_frigate_instance_id, hres, hok, Command.reqId,
        expectedCall]

/-- C1 witness: scenario A. -/
theorem success_result_verbatim_witness :
    testHass.registry (Command.retainEvent ⟨1, "X", "E1", true⟩).instanceId =
        some okClient ∧
      handle testHass (Command.retainEvent ⟨1, "X", "E1", true⟩) =
        ⟨[Envelope.result 1 "retain-ok"], [BackendCall.retain "E1" true],
          none⟩ :=
  ⟨rfl, success_result_verbatim testHass _ okClient "retain-ok" rfl rfl⟩

/-- C2: for every request of any of the three commands whose instance id
does not resolve, the gateway sends exactly one error envelope with code
`not_found` whose message names the missing instance id, and makes no
backend call. -/
theorem unresolved_instance_not_found (hass : Hass) (c : Command)
    (hres : hass.registry c.instanceId = none) :
    handle hass c =
      ⟨[Envelope.error c.reqId "not_found"
          ("Unable to find Frigate instance with ID: " ++ c.instanceId)],
        [], none⟩ := by
  cases c <;>
    simp_all [handle, ws_retain_event, ws_get_recordings,
      ws_get_recordings_summary, _get_client_or_send_error,
      get_client_for_frigate_instance_id, ERR_NOT_FOUND, Command.instanceId,
      Command.reqId]

/-- C2 witness: the unregistered instance id from the test suite. -/
theorem unresolved_instance_not_found_witness :
    handle testHass
        (Command.retainEvent
          ⟨1, "THIS-IS-NOT-A-REAL-INSTANCE-ID", "E1", true⟩) =
      ⟨[Envelope.error 1 "not_found"
          ("Unable to find Frigate instance with ID: " ++
            "THIS-IS-NOT-A-REAL-INSTANCE-ID")], [], none⟩ :=
  unresolved_instance_not_found testHass _ rfl

/-- C3 counterexample: a well-formed retain request whose backend call
raises a foreign exception (`ValueError`): the handler sends no envelope at
all and the exception escapes the module, so this request produces zero
outbound envelopes, not one. -/
theorem every_request_one_envelope_cex :
    (dispatch exoticHass retainRaw1).sent = [] ∧
      (dispatch exoticHass retainRaw1).sent.length ≠ 1 ∧
      (dispatch exoticHass retainRaw1).raised =
        some (Exc.other "ValueError") := by
  decide

/-- C3 (amended): every inbound request produces exactly one outbound
envelope and no fault escapes, provided every backend failure is the
distinguished domain error `FrigateApiClientError`; a backend call raising
any other exception escapes the handler and no envelope is sent by this
module for that request. -/
theorem every_request_one_envelope (hass : Hass) (m : RawMessage)
    (h : hassNoForeignExc hass) :
    (dispatch hass m).sent.length = 1 ∧ (dispatch hass m).raised = none :=
  dispatch_one_envelope hass m h

lemma testHass_no_foreign : hassNoForeignExc testHass := by
  intro iid client hc
  simp only [testHass] at hc
  split at hc
  · cases hc
    exact ⟨fun _ _ _ => by simp [okClient],
      fun _ _ _ _ => by simp [okClient], fun _ _ => by simp [okClient]⟩
  · cases hc

/-- C3 witness. -/
theorem every_request_one_envelope_witness :
    (dispatch testHass retainRaw1).sent.length = 1 ∧
      (dispatch testHass retainRaw1).raised = none :=
  every_request_one_envelope testHass retainRaw1 testHass_no_foreign

/-- C4: for every request of any of the three commands where the resolved
backend client raises `FrigateApiClientError`, the gateway sends exactly
one error envelope with code `frigate_error` whose message names the
operation, the relevant resource (event id or camera) and the instance id;
the original error is replaced by the generic tag and does not escape. -/
theorem backend_domain_error_envelope (hass : Hass) (c : Command)
    (client : FrigateApiClient)
    (hres : hass.registry c.instanceId = some client)
    (herr : backendOutcome client c =
      Except.error Exc.frigateApiClientError) :
    handle hass c =
        ⟨[Envelope.error c.reqId "frigate_error" (frigateErrorMessage c)],
          [expectedCall c], none⟩ ∧
      ∃ s1 s2, frigateErrorMessage c =
        s1 ++ Command.resource c ++ s2 ++ Command.instanceId c := by
  cases c with
  | retainEvent m =>
      refine ⟨?_, "API error whilst un/retaining event ",
        " for Frigate instance ", rfl⟩
      simp only [Command.instanceId] at hres
      simp only [backendOutcome] at herr
      simp [handle, ws_retain_event, _get_client_or_send_error,
        get_client_for_frigate_instance_id, hres, herr, Command.reqId,
        expectedCall, frigateErrorMessage]
  | getRecordings m =>
      refine ⟨?_, "API error whilst retrieving recordings for camera ",
        " for Frigate instance ", rfl⟩
      simp only [Command.instanceId] at hres
      simp only [backendOutcome] at herr
      simp [handle, ws_get_recordings, _get_client_or_send_error,
        get_client_for_frigate_instance_id, hres, herr, Command.reqId,
        expectedCall, frigateErrorMessage]
  | getRecordingsSummary m =>
      refine ⟨?_,
        "API error whilst retrieving recordings summary for camera ",
        " for Frigate instance ", rfl⟩
      simp only [Command.instanceId] at hres
      simp only [backendOutcome] at herr
      simp [handle, ws_get_recordings_summary, _get_client_or_send_error,
        get_client_for_frigate_instance_id, hres, herr, Command.reqId,
        expectedCall, frigateErrorMessage]

/-- C4 witness. -/
theorem backend_domain_error_envelope_witness :
    handle errHass (Command.retainEvent ⟨3, "X", "E1", true⟩) =
        ⟨[Envelope.error 3 "frigate_error"
            (frigateErrorMessage
              (Command.retainEvent ⟨3, "X", "E1", true⟩))],
          [BackendCall.retain "E1" true], none⟩ ∧
      ∃ s1 s2, frigateErrorMessage
          (Command.retainEvent ⟨3, "X", "E1", true⟩) =
        s1 ++ "E1" ++ s2 ++ "X" :=
  backend_domain_error_envelope errHass _ frigateErrClient rfl rfl

lemma dispatch_invalid_of_missing (m : RawMessage)
    (hcmd : isGatewayCommand m.type = true)
    (hmiss : requiredFieldsOk m = false) :
    ∀ hass : Hass, dispatch hass m = invalidFormatTrace m.id := by
  intro hass
  obtain ⟨mid, mtype, miid, meid, mret, mcam, maft, mbef⟩ := m
  simp only [isGatewayCommand, Bool.or_eq_true, decide_eq_true_eq] at hcmd
  unfold dispatch
  rcases hcmd with (ht | ht) | ht <;> subst ht
  · rw [if_pos rfl]
    rw [requiredFieldsOk, if_pos rfl] at hmiss
    cases miid <;> cases meid <;> cases mret <;> simp_all
  · have hne1 : ¬ ("frigate/recordings/get" : String) =
        "frigate/event/retain" := by decide
    rw [if_neg hne1, if_pos rfl]
    rw [requiredFieldsOk, if_neg hne1, if_pos rfl] at hmiss
    cases miid <;> cases mcam <;> simp_all
  · have hne1 : ¬ ("frigate/recordings/summary" : String) =
        "frigate/event/retain" := by decide
    have hne2 : ¬ ("frigate/recordings/summary" : String) =
        "frigate/recordings/get" := by decide
    rw [if_neg hne1, if_neg hne2, if_pos rfl]
    rw [requiredFieldsOk, if_neg hne1, if_neg hne2, if_pos rfl] at hmiss
    cases miid <;> cases mcam <;> simp_all

/-- C5: every request for one of the three commands that is missing a
required field of its command's schema is answered with an
`invalid_format` error envelope; it is rejected before any registry
resolution or backend call (the outcome is the same for every registry and
records no backend call). -/
theorem missing_required_field_invalid_format (hass : Hass) (m : RawMessage)
    (hcmd : isGatewayCommand m.type = true)
    (hmiss : requiredFieldsOk m = false) :
    dispatch hass m =
        ⟨[Envelope.error m.id "invalid_format"
            "Message incorrectly formatted"], [], none⟩ ∧
      (dispatch hass m).calls = [] ∧
      ∀ hass' : Hass, dispatch hass' m = dispatch hass m :=
  ⟨dispatch_invalid_of_missing m hcmd hmiss hass,
    by rw [dispatch_invalid_of_missing m hcmd hmiss hass]; rfl,
    fun hass' => (dispatch_invalid_of_missing m hcmd hmiss hass').trans
      (dispatch_invalid_of_missing m hcmd hmiss hass).symm⟩

/-- A retain request carrying only `id` and `type`, as in the
`test_retain_missing_args` test. -/
def missingFieldsRaw : RawMessage :=
  ⟨1, "frigate/event/retain", none, none, none, none, none, none⟩

/-- C5 witness. -/
theorem missing_required_field_invalid_format_witness :
    isGatewayCommand missingFieldsRaw.type = true ∧
      requiredFieldsOk missingFieldsRaw = false ∧
      dispatch testHass missingFieldsRaw =
        ⟨[Envelope.error 1 "invalid_format" "Message incorrectly formatted"],
          [], none⟩ :=
  ⟨by decide, by decide,
    (missing_required_field_invalid_format testHass missingFieldsRaw
      (by decide) (by decide)).1⟩

lemma dispatch_get_recordings (hass : Hass) (m : RawMessage)
    (iid cam : String) (ht : m.type = "frigate/recordings/get")
    (hiid : m.instance_id = some iid) (hcam : m.camera = some cam) :
    dispatch hass m =
      ws_get_recordings hass ⟨m.id, iid, cam, m.after, m.before⟩ := by
  unfold dispatch
  rw [if_neg (show ¬ m.type = "frigate/event/retain" by rw [ht]; decide),
    if_pos ht, hiid, hcam]

lemma ws_get_recordings_calls (hass : Hass) (msg : GetRecordingsMsg)
    (client : FrigateApiClient)
    (hres : hass.registry msg.instance_id = some client) :
    (ws_get_recordings hass msg).calls =
      [BackendCall.getRecordings msg.camera msg.after msg.before] := by
  unfold ws_get_recordings _get_client_or_send_error
    get_client_for_frigate_instance_id
  cases ho : client.async_get_recordings msg.camera msg.after msg.before with
  | ok p => simp [hres, ho]
  | error e => cases e <;> simp [hres, ho]

/-- C6: for every well-formed get-recordings request whose instance id
resolves, the backend's `async_get_recordings` is invoked with exactly the
request's camera, after and before values, in that order; an absent
`after`/`before` is passed as `none`. -/
theorem get_recordings_args_verbatim (hass : Hass) (m : RawMessage)
    (iid cam : String) (client : FrigateApiClient)
    (ht : m.type = "frigate/recordings/get")
    (hiid : m.instance_id = some iid) (hcam : m.camera = some cam)
    (hres : hass.registry iid = some client) :
    (dispatch hass m).calls =
      [BackendCall.getRecordings cam m.after m.before] := by
  rw [dispatch_get_recordings hass m iid cam ht hiid hcam]
  exact ws_get_recordings_calls hass ⟨m.id, iid, cam, m.after, m.before⟩
    client hres

/-- Scenario B's raw request: get-recordings on camera `front_door` with
`after = 1`, `before = 2`. -/
def recordingsRaw : RawMessage :=
  ⟨2, "frigate/recordings/get", some "X", none, none, some "front_door",
    some 1, some 2⟩

/-- C6 witness: scenario B. -/
theorem get_recordings_args_verbatim_witness :
    (dispatch testHass recordingsRaw).calls =
      [BackendCall.getRecordings "front_door" (some 1) (some 2)] :=
  get_recordings_args_verbatim testHass recordingsRaw "X" "front_door"
    okClient rfl rfl rfl rfl

/-- C7 counterexample: a complete cooperative execution of a two-request
batch (arrival order: request id 1, then request id 2) in which request
2's backend call completes first: the envelopes are emitted in the order
[2, 1], not in the order the requests were received. -/
theorem in_order_emission_cex :
    validSchedule testHass batch2 swappedSched = true ∧
      arrivalOrder swappedSched = [0, 1] ∧
      List.map RawMessage.id batch2 = [1, 2] ∧
      List.map Envelope.envId (runStream testHass batch2 swappedSched) =
        [2, 1] ∧
      List.map Envelope.envId (runStream testHass batch2 swappedSched) ≠
        List.map RawMessage.id batch2 := by
  decide

/-- C7 witness: in the swapped schedule, request id 1 (batch index 0)
still receives exactly one envelope. -/
theorem one_envelope_per_request_id_witness :
    validSchedule testHass batch2 swappedSched = true ∧
      (runStream testHass batch2 swappedSched).countP
        (fun env => decide (env.envId = (batch2.get ⟨0, by decide⟩).id)) =
        1 :=
  ⟨by decide,
    one_envelope_per_request_id testHass batch2 swappedSched 0 (by decide)
      (by decide) (by decide) (by decide)⟩

/-- C8: the gateway is stateless across requests: processing two requests
back-to-back yields the two independent envelopes of the two dispatches,
and the envelopes attributable to the second request are unchanged under
any replacement of the first request — each outcome is determined only by
its own request, the registry and its own backend outcome. -/
theorem stateless_independent_envelopes (hass : Hass)
    (m1 m1' m2 : RawMessage) :
    sequentialRun hass [m1, m2] =
        (dispatch hass m1).sent ++ (dispatch hass m2).sent ∧
      List.drop (dispatch hass m1).sent.length
          (sequentialRun hass [m1, m2]) =
        List.drop (dispatch hass m1').sent.length
          (sequentialRun hass [m1', m2]) := by
  constructor
  · simp [sequentialRun]
  · rw [show sequentialRun hass [m1, m2] =
        (dispatch hass m1).sent ++ (dispatch hass m2).sent by
        simp [sequentialRun],
      show sequentialRun hass [m1', m2] =
        (dispatch hass m1').sent ++ (dispatch hass m2).sent by
        simp [sequentialRun],
      List.drop_left, List.drop_left]

/-- C9: the handlers' error recovery is selective: a foreign exception
raised by the backend call escapes the handler with no envelope sent,
while the distinguished `FrigateApiClientError` and only it is converted
into a `frigate_error` envelope. -/
theorem only_domain_error_caught (hass : Hass) (c : Command)
    (client : FrigateApiClient)
    (hres : hass.registry c.instanceId = some client) :
    (∀ s, backendOutcome client c = Except.error (Exc.other s) →
        handle hass c = ⟨[], [expectedCall c], some (Exc.other s)⟩) ∧
      (backendOutcome client c = Except.error Exc.frigateApiClientError →
        (handle hass c).raised = none ∧
          (handle hass c).sent =
            [Envelope.error c.reqId "frigate_error"
              (frigateErrorMessage c)]) := by
  cases c with
  | retainEvent m =>
      simp only [Command.instanceId] at hres
      constructor
      · intro s hs
        simp only [backendOutcome] at hs
        simp [handle, ws_retain_event, _get_client_or_send_error,
          get_client_for_frigate_instance_id, hres, hs, expectedCall]
      · intro hf
        simp only [backendOutcome] at hf
        simp [handle, ws_retain_event, _get_client_or_send_error,
          get_client_for_frigate_instance_id, hres, hf, Command.reqId,
          frigateErrorMessage]
  | getRecordings m =>
      simp only [Command.instanceId] at hres
      constructor
      · intro s hs
        simp only [backendOutcome] at hs
        simp [handle, ws_get_recordings, _get_client_or_send_error,
          get_client_for_frigate_instance_id, hres, hs, expectedCall]
      · intro hf
        simp only [backendOutcome] at hf
        simp [handle, ws_get_recordings, _get_client_or_send_error,
          get_client_for_frigate_instance_id, hres, hf, Command.reqId,
          frigateErrorMessage]
  | getRecordingsSummary m =>
      simp only [Command.instanceId] at hres
      constructor
      · intro s hs
        simp only [backendOutcome] at hs
        simp [handle, ws_get_recordings_summary, _get_client_or_send_error,
          get_client_for_frigate_instance_id, hres, hs, expectedCall]
      · intro hf
        simp only [backendOutcome] at hf
        simp [handle, ws_get_recordings_summary, _get_client_or_send_error,
          get_client_for_frigate_instance_id, hres, hf, Command.reqId,
          frigateErrorMessage]

/-- C9 witness: a backend `ValueError` escapes `ws_retain_event` with no
envelope sent. -/
theorem only_domain_error_caught_witness :
    handle exoticHass (Command.retainEvent ⟨7, "X", "E1", true⟩) =
      ⟨[], [BackendCall.retain "E1" true], some (Exc.other "ValueError")⟩ :=
  (only_domain_error_caught exoticHass
      (Command.retainEvent ⟨7, "X", "E1", true⟩) exoticErrClient rfl).1
    "ValueError" rfl

/-- C10: every request receives at most one envelope from its handler: the
`not_found`, `frigate_error` and success paths are mutually exclusive, so
no request is answered twice. -/
theorem at_most_one_envelope_per_request (hass : Hass) (m : RawMessage) :
    (dispatch hass m).sent.length ≤ 1 := by
  unfold dispatch
  split
  · cases m.instance_id <;> cases m.event_id <;> cases m.retain <;>
      first
        | exact ws_retain_event_sent_le_one hass _
        | simp [invalidFormatTrace]
  · split
    · cases m.instance_id <;> cases m.camera <;>
        first
          | exact ws_get_recordings_sent_le_one hass _
          | simp [invalidFormatTrace]
    · split
      · cases m.instance_id <;> cases m.camera <;>
          first
            | exact ws_get_recordings_summary_sent_le_one hass _
            | simp [invalidFormatTrace]
      · simp
